import Mathlib

/-!
# ExaTN: backend registries, numpy functor wrapper, bindings and broadcast operation

A shallow embedding of the parts of the ExaTN sources that the specification
talks about:

* `src/numerics/backend.hpp`: the functor registry and the external-data registry
  of a `Backend`;
* `python/exatn-py.cpp`: the numpy functor wrapper, the element type table and the
  binding lambdas;
* `src/numerics/tensor_op_broadcast.hpp`: the broadcast operation.

Conventions of the embedding:

* a `std::map<std::string, V>` is an association list with first-match lookup; the
  order of iteration of the map is not modelled;
* an object that is mutated in place is passed in and returned;
* a 32-bit `int` is an `Int` kept in range by `wrapInt32` (two-complement
  wrap-around on overflow), an unsigned value is a `Nat`;
* a run that aborts (failed `assert`, access outside a buffer) is `none`.
-/

namespace Exatn

/-! ## `std::map` -/

/-- The type `std::map<std::string, V>`, as the list of its entries. -/
abbrev StdMap (ν : Type) := List (String × ν)

namespace StdMap

variable {ν : Type}

/-- The value stored under `k`, as `std::map::find` reports it. -/
def find (k : String) : StdMap ν → Option ν
  | [] => none
  | (k', v) :: rest => if k' = k then some v else find k rest

/-- Lookup as a boolean: `std::map::count(k) == 1`. -/
def contains (k : String) (m : StdMap ν) : Bool := (find k m).isSome

/-- The call `m.insert({k, v})`: a new entry is added only when no entry has the
key `k`; an entry that is already there is kept as it is. -/
def insert (k : String) (v : ν) : StdMap ν → StdMap ν
  | [] => [(k, v)]
  | (k', v') :: rest =>
    if k' = k then (k', v') :: rest else (k', v') :: insert k v rest

/-- The expression `m[k]`: the value under `k`; when there is none an entry with
the value-initialised `dflt` is added first. Returns the value and the map. -/
def index (dflt : ν) (k : String) (m : StdMap ν) : ν × StdMap ν :=
  match find k m with
  | some v => (v, m)
  | none => (dflt, insert k dflt m)

/-- The number of entries, `std::map::size`. -/
def size (m : StdMap ν) : Nat := m.length

end StdMap

/-! ## `Backend` (src/numerics/backend.hpp) -/

/-- The interface `TensorMethod<Identifiable>` as far as the backend uses it: a
functor reports its name. -/
class TensorMethod (μ : Type) where
  /-- The method `name()`. -/
  name : μ → String

/-- The struct `BytePacket`, with the two fields the binding exposes
(`base_addr`, `size_bytes`). -/
structure BytePacket where
  base_addr : Nat
  size_bytes : Nat
deriving DecidableEq, Repr

/-- A value-initialised `BytePacket`: null address, no bytes. -/
instance : Inhabited BytePacket := ⟨⟨0, 0⟩⟩

/-- The data members of `Backend`. -/
structure Backend (μ : Type) where
  methods : StdMap μ
  extData : StdMap BytePacket

namespace Backend

variable {μ : Type} [TensorMethod μ]

/-- The method `Backend::addTensorMethod`, whose body is
`methods.insert({method->name(), method})`. -/
def addTensorMethod (b : Backend μ) (method : μ) : Backend μ :=
  { b with methods := StdMap.insert (TensorMethod.name method) method b.methods }

/-- The method `Backend::getExternalData`, whose body is `return extData[tag]`:
the packet returned and the backend after the call. -/
def getExternalData (b : Backend μ) (tag : String) : BytePacket × Backend μ :=
  let r := StdMap.index default tag b.extData
  (r.1, { b with extData := r.2 })

end Backend

/-! ## Machine integers and the counting loop -/

/-- A value brought into the range of a 32-bit `int`, two-complement. -/
def wrapInt32 (z : Int) : Int := (z + 2147483648) % 4294967296 - 2147483648

/-- The conversion of an `int` to a 32-bit `unsigned int`. -/
def intToUInt32 (i : Int) : Nat := (i % 4294967296).toNat

/-- The conversion of an `int` to a 64-bit `std::size_t`. -/
def intToSizeT (i : Int) : Nat := (i % 18446744073709551616).toNat

/-- Fuel of a loop driven by an `int` counter and a fixed bound: the counter has
`2 ^ 32` values, so a loop that has not left after that many rounds never does. -/
def intCounterFuel : Nat := 4294967297

/-- The loop `for (int i = ...; i < bound; i++) body`, where the comparison
converts `i` to the unsigned type of `bound` through `conv`. The body may abort
the run. -/
def forInt {σ : Type} (conv : Int → Nat) (bound : Nat) (body : Int → σ → Option σ) :
    Nat → Int → σ → Option σ
  | 0, _, _ => none
  | fuel + 1, i, s =>
    if conv i < bound then
      match body i s with
      | none => none
      | some s' => forInt conv bound body fuel (wrapInt32 (i + 1)) s'
    else some s

/-- The statement `dst[i] = src[i]` with the conversion `cvt` of the element; an
index outside either buffer aborts the run. -/
def assignAt {γ β : Type} (cvt : γ → β) (src : List γ) (i : Int) (dst : List β) :
    Option (List β) :=
  if i < 0 then none
  else
    match src[i.toNat]? with
    | none => none
    | some x => if i.toNat < dst.length then some (dst.set i.toNat (cvt x)) else none

/-- The macro `assert(cond)`: with `NDEBUG` it is empty, without it a false
condition aborts the run. -/
def cassert (ndebug : Bool) (cond : Bool) : Option Unit :=
  if ndebug || cond then some () else none

/-! ## The numpy functor wrapper (python/exatn-py.cpp) -/

/-- A numpy array `py::array`: its shape and its elements in row-major order. -/
structure PyArray (α : Type) where
  shape : List Int
  data : List α

namespace PyArray

variable {α : Type}

/-- The number of dimensions, `ndim()`. -/
def ndim (a : PyArray α) : Nat := a.shape.length

/-- The number of elements, `size()`. -/
def size (a : PyArray α) : Nat := a.data.length

/-- The in-place `resize(new_shape)`: the elements are kept in order, cut or
filled with zeros to the new count. -/
def resize [Inhabited α] (a : PyArray α) (new_shape : List Nat) : PyArray α :=
  let n := new_shape.prod
  { shape := new_shape.map Int.ofNat
    data := (a.data ++ List.replicate (n - a.data.length) default).take n }

/-- The constructor `py::array_t<T>(shape, ptr, base)`: a view of the buffer at
`ptr` with the given extents, without a copy. A negative extent is refused by
numpy, which aborts the run. -/
def ofBuffer (shape : List Int) (buffer : List α) : Option (PyArray α) :=
  if shape.all (fun d => decide (0 ≤ d)) then some ⟨shape, buffer⟩ else none

end PyArray

namespace talsh

/-- The view of a `talsh::Tensor` that the wrapper uses: the dimension extents
and the element buffer on the host. The rank of a tensor fits an `int`. -/
structure Tensor (α : Type) where
  dims : List Nat
  elements : List α
  rank_fits : dims.length < 2147483648

namespace Tensor

variable {α : Type}

/-- The rank, `getRank()`. -/
def getRank (t : Tensor α) : Nat := t.dims.length

/-- The extents, `getDimExtents(nd)`. -/
def getDimExtents (t : Tensor α) : List Nat := t.dims

/-- The number of elements of the buffer, `getVolume()`. -/
def getVolume (t : Tensor α) : Nat := t.elements.length

/-- The element buffer, `getDataAccessHost(&elements)`. -/
def getDataAccessHost (t : Tensor α) : List α := t.elements

end Tensor

end talsh

/-- The class `NumpyTensorFunctorCppWrapper<NumericType>`. The callback gets the
array view and leaves the viewed buffer with the contents it returns; an empty
`std::function` is `none`. -/
structure NumpyTensorFunctorCppWrapper (α : Type) where
  _functor : Option (PyArray α → List α)
  initialData : PyArray α
  initialDataProvided : Bool

/-- What a call of `apply` leaves behind: the return code, the tensor, the
wrapper, and the array views the callback was invoked with, in order. -/
structure ApplyResult (α : Type) where
  ret : Int
  local_tensor : talsh.Tensor α
  self : NumpyTensorFunctorCppWrapper α
  invoked : List (PyArray α)

namespace NumpyTensorFunctorCppWrapper

variable {α : Type}

/-- The constructor from a callback. -/
def ofFunctor (functor : PyArray α → List α) : NumpyTensorFunctorCppWrapper α :=
  { _functor := some functor, initialData := ⟨[0], []⟩, initialDataProvided := false }

/-- The constructor from a numpy array with the initial data. -/
def ofArray (buffer : PyArray α) : NumpyTensorFunctorCppWrapper α :=
  { _functor := none, initialData := buffer, initialDataProvided := true }

/-- The method `name()`. -/
def name (_w : NumpyTensorFunctorCppWrapper α) : String :=
  "numpy_tensor_functor_cpp_wrapper"

/-- The method `description()`. -/
def description (_w : NumpyTensorFunctorCppWrapper α) : String := ""

/-- The method `apply(local_tensor)`. -/
def apply [Inhabited α] (ndebug : Bool) (w : NumpyTensorFunctorCppWrapper α)
    (local_tensor : talsh.Tensor α) : Option (ApplyResult α) :=
  let nd := local_tensor.getRank % 4294967296
  let dims := local_tensor.getDimExtents
  match forInt intToUInt32 nd (assignAt (fun d : Nat => wrapInt32 (d : Int)) dims)
      intCounterFuel 0 (List.replicate nd (0 : Int)) with
  | none => none
  | some dims_vec =>
    let elements := local_tensor.getDataAccessHost
    if w.initialDataProvided then
      match cassert ndebug (local_tensor.getVolume == w.initialData.size) with
      | none => none
      | some _ =>
        let initialData := w.initialData.resize [local_tensor.getVolume]
        match forInt intToSizeT local_tensor.getVolume (assignAt id initialData.data)
            intCounterFuel 0 elements with
        | none => none
        | some elements' =>
          some { ret := 0
                 local_tensor := { local_tensor with elements := elements' }
                 self := { w with initialData := initialData }
                 invoked := [] }
    else
      match PyArray.ofBuffer dims_vec elements with
      | none => none
      | some arr =>
        match w._functor with
        | none => none
        | some f =>
          some { ret := 0
                 local_tensor := { local_tensor with elements := f arr }
                 self := w
                 invoked := [arr] }

end NumpyTensorFunctorCppWrapper

/-- Every wrapper is a tensor method, under its fixed name. -/
instance (α : Type) : TensorMethod (NumpyTensorFunctorCppWrapper α) :=
  ⟨NumpyTensorFunctorCppWrapper.name⟩

/-! ## Element types (python/exatn-py.cpp) -/

/-- The enumerators of `TensorElementType` that the binding file names. -/
inductive TensorElementType where
  | REAL32
  | REAL64
  | COMPLEX32
  | COMPLEX64
deriving DecidableEq, Repr

/-- The host numeric types for which `TypeToTensorElementType` is specialised. -/
inductive HostNumericType where
  | float
  | double
  | complexDouble
deriving DecidableEq, Repr

/-- The static member `TypeToTensorElementType<T>::type`. -/
def TypeToTensorElementType : HostNumericType → TensorElementType
  | .float => .REAL32
  | .double => .REAL64
  | .complexDouble => .COMPLEX64

/-! ## Tensor networks and the module function `appendTensorNetwork` -/

/-- Modelled from the spec: the class `TensorNetwork`, declared outside the
sources at hand. A network is a named list of tensor nodes (node id and tensor
name); the legs of the nodes are not modelled. -/
structure TensorNetwork where
  name : String
  tensors : List (Nat × String)
deriving DecidableEq, Repr

namespace TensorNetwork

/-- Modelled from the spec: `TensorNetwork::isEmpty`, a network without nodes. -/
def isEmpty (network : TensorNetwork) : Bool := network.tensors.isEmpty

/-- Modelled from the spec: `TensorNetwork::appendTensorNetwork(TensorNetwork &&,
pairing)`, declared outside the sources at hand. The nodes of the second network
are spliced into the first and the second network, taken by move, is left empty.
Returns the success flag, the first network and the moved-from second network.
The rewiring of the paired legs is not modelled. -/
def appendTensorNetwork (network append_network : TensorNetwork)
    (_pairing : List (Nat × Nat)) : Bool × TensorNetwork × TensorNetwork :=
  (true,
   { network with tensors := network.tensors ++ append_network.tensors },
   { append_network with tensors := [] })

end TensorNetwork

/-- The module function `appendTensorNetwork` of the binding, a lambda
`(TensorNetwork *network, TensorNetwork append_network, pairing)`. The second
parameter is taken by value: it is a copy of the object of the caller, and
`std::move` hands that copy to `core`, the member function
`TensorNetwork::appendTensorNetwork`. Returns the flag of the member function and
the two networks of the caller after the call. -/
def appendTensorNetwork {ν π : Type} (core : ν → ν → π → Bool × ν × ν)
    (network : ν) (append_network : ν) (pairing : π) : Bool × ν × ν :=
  let parameter := append_network
  let r := core network parameter pairing
  (r.1, r.2.1, append_network)

/-! ## The `createTensor` lambdas of the `NumServer` binding -/

/-- The first `createTensor` lambda, `(NumServer &n, name, dims)`. The parameter
`createTensor` is `NumServer::createTensor(name, element_type, shape)`, which
returns the success flag and leaves the server in a new state. The lambda returns
`void`; an assertion that fails aborts the run. -/
def pyCreateTensorDims {σ : Type}
    (createTensor : σ → String → TensorElementType → List Nat → Bool × σ)
    (ndebug : Bool) (n : σ) (name : String) (dims : List Nat) : Option (Unit × σ) :=
  let r := createTensor n name TensorElementType.REAL64 dims
  let created := r.1
  match cassert ndebug created with
  | none => none
  | some _ => some ((), r.2)

/-- The second `createTensor` lambda, `(NumServer &n, name)`. The parameter
`createTensor` is `NumServer::createTensor(name, element_type)`. -/
def pyCreateTensor {σ : Type}
    (createTensor : σ → String → TensorElementType → Bool × σ)
    (ndebug : Bool) (n : σ) (name : String) : Option (Unit × σ) :=
  let r := createTensor n name TensorElementType.REAL64
  let created := r.1
  match cassert ndebug created with
  | none => none
  | some _ => some ((), r.2)

/-- Modelled from the spec: the tensor registry of `NumServer`, declared outside
the sources at hand: the registered tensors by name, with element type and
shape. -/
structure NumServer where
  tensors : StdMap (TensorElementType × List Nat)
deriving DecidableEq, Repr

namespace NumServer

/-- Modelled from the spec: `NumServer::createTensor(name, element_type, shape)`.
A name that is registered already is rejected and the registry is left as it
was; otherwise the tensor is registered. -/
def createTensor (n : NumServer) (name : String) (element_type : TensorElementType)
    (shape : List Nat) : Bool × NumServer :=
  if StdMap.contains name n.tensors then (false, n)
  else (true, { tensors := StdMap.insert name (element_type, shape) n.tensors })

end NumServer

/-! ## The broadcast operation (src/numerics/tensor_op_broadcast.hpp) -/

/-- Modelled from the spec: the class `MPICommProxy`, declared outside the
sources at hand: a communicator, with the size of its process group. -/
structure MPICommProxy where
  group_size : Nat
deriving DecidableEq, Repr

/-- Modelled from the spec: the state of a `TensorOpBroadcast`. The header
declares the members `intra_comm_` and `root_rank_`; the tensor operand slot comes
from `TensorOperation`, declared outside the sources at hand. A slot that has not
been set is `none`. -/
structure TensorOpBroadcast where
  operand : Option String
  intra_comm_ : Option MPICommProxy
  root_rank_ : Option Nat
deriving DecidableEq, Repr

namespace TensorOpBroadcast

/-- Modelled from the spec: the constructor `TensorOpBroadcast()`, nothing set. -/
def new : TensorOpBroadcast := { operand := none, intra_comm_ := none, root_rank_ := none }

/-- Modelled from the spec: the getter `getMPICommunicator()`, defined outside the
sources at hand. -/
def getMPICommunicator (op : TensorOpBroadcast) : Option MPICommProxy := op.intra_comm_

/-- Modelled from the spec: the getter `getRootRank()`, defined outside the
sources at hand. -/
def getRootRank (op : TensorOpBroadcast) : Option Nat := op.root_rank_

/-- Modelled from the spec: the size of the process group of the communicator of
the operation; without a communicator there is no process. -/
def groupSize (op : TensorOpBroadcast) : Nat :=
  match op.intra_comm_ with
  | none => 0
  | some comm => comm.group_size

/-- Modelled from the spec: `setTensorOperand` for the one operand slot. -/
def setTensorOperand (op : TensorOpBroadcast) (tensor : String) : TensorOpBroadcast :=
  { op with operand := some tensor }

/-- Modelled from the spec: `resetMPICommunicator(intra_comm)`, defined outside
the sources at hand: the communicator is stored. -/
def resetMPICommunicator (op : TensorOpBroadcast) (intra_comm : MPICommProxy) :
    Bool × TensorOpBroadcast :=
  (true, { op with intra_comm_ := some intra_comm })

/-- Modelled from the spec: `resetRootRank(rank)`, defined outside the sources at
hand: the rank is checked against the size of the process group of the
communicator; a rank out of range fails and changes nothing. -/
def resetRootRank (op : TensorOpBroadcast) (rank : Nat) : Bool × TensorOpBroadcast :=
  if rank < op.groupSize then (true, { op with root_rank_ := some rank })
  else (false, op)

/-- Modelled from the spec: `isSet()`, defined outside the sources at hand: the
operand, the communicator and the root rank have all been set. -/
def isSet (op : TensorOpBroadcast) : Bool :=
  op.operand.isSome && op.intra_comm_.isSome && op.root_rank_.isSome

/-- Modelled from the spec: `accept(node_executor, exec_handle)`, defined outside
the sources at hand: only an operation that is set is handed to the executor,
whose answer is returned; any other is refused. -/
def accept {η : Type} (node_executor : TensorOpBroadcast → η) (op : TensorOpBroadcast) :
    Option η :=
  if op.isSet then some (node_executor op) else none

end TensorOpBroadcast

/-! ## Entries of a `std::map` -/

/-- The keys of a `std::map` are pairwise distinct: the condition under which a
list of entries stands for a map. -/
def StdMap.keysDistinct {ν : Type} (m : StdMap ν) : Prop := (m.map Prod.fst).Nodup

/-- The condition `keysDistinct` can be computed. -/
instance StdMap.decidableKeysDistinct {ν : Type} (m : StdMap ν) :
    Decidable (StdMap.keysDistinct m) :=
  inferInstanceAs (Decidable ((m.map Prod.fst).Nodup))

/-- The entries of a map under the key `k`. -/
def StdMap.entriesAt {ν : Type} (k : String) (m : StdMap ν) : List (String × ν) :=
  m.filter (fun e => decide (e.1 = k))

/-! ## The function `createTensorWithData` (python/exatn-py.cpp) -/

/-- The conversion of a `ssize_t` to a 64-bit `std::size_t`. -/
def ssizeToSizeT (d : Int) : Nat := (d % 18446744073709551616).toNat

/-- The loop `for (int i = ...; i < bound; i++) body` for a bound of the signed
type `ssize_t`: the counter is compared with its own value. The body may abort
the run. -/
def forIntSigned {σ : Type} (bound : Int) (body : Int → σ → Option σ) :
    Nat → Int → σ → Option σ
  | 0, _, _ => none
  | fuel + 1, i, s =>
    if i < bound then
      match body i s with
      | none => none
      | some s' => forIntSigned bound body fuel (wrapInt32 (i + 1)) s'
    else some s

/-- The function template `createTensorWithData<NumericType>`, for the numeric
type `ty`. The parameters `createTensor` and `transformTensor` are the member
functions of `NumServer` of these names; each returns its success flag and the
server after the call. Returns the flag the function returns and the server
after the call; an assertion that fails aborts the run. -/
def createTensorWithData {σ α : Type}
    (createTensor : σ → String → TensorElementType → List Nat → Bool × σ)
    (transformTensor : σ → String → NumpyTensorFunctorCppWrapper α → Bool × σ)
    (ndebug : Bool) (ty : HostNumericType) (n : σ) (name : String) (data : PyArray α) :
    Option (Bool × σ) :=
  let shape := data.shape
  match forIntSigned (data.ndim : Int) (assignAt ssizeToSizeT shape) intCounterFuel 0
      (List.replicate data.ndim (0 : Nat)) with
  | none => none
  | some dims =>
    let tensor_el_type := TypeToTensorElementType ty
    let r := createTensor n name tensor_el_type dims
    let created := r.1
    match cassert ndebug created with
    | none => none
    | some _ =>
      let functor := NumpyTensorFunctorCppWrapper.ofArray data
      some (transformTensor r.2 name functor)

/-- Modelled from the spec: `NumServer::transformTensor(name, functor)`, declared
outside the sources at hand: the functor is applied to the registered tensor of
that name, and the call succeeds when there is one. The contents of the tensors
are not part of the registry. -/
def NumServer.transformTensor {α : Type} (n : NumServer) (name : String)
    (_functor : NumpyTensorFunctorCppWrapper α) : Bool × NumServer :=
  (StdMap.contains name n.tensors, n)

/-! ## The binding of `TensorNetwork::finalize` (python/exatn-py.cpp) -/

/-- The bound method `finalize` of `TensorNetwork`, with the keyword argument
`check_validity` and its default value `false`. An argument that the caller leaves
out is `none`; `core` is the member function `TensorNetwork::finalize`. -/
def pyFinalize {ν ρ : Type} (core : ν → Bool → ρ) (network : ν)
    (check_validity : Option Bool) : ρ :=
  core network (check_validity.getD false)

/-- Modelled from the spec: `TensorNetwork::finalize(check_validity)`, declared
outside the sources at hand. The network is frozen (`freeze`), and if validation
is requested the mirroring of the edges and the agreement of the extents are
checked first (`valid`); a network that fails the check is reported and left as
it was. -/
def finalizeSpec {ν : Type} (valid : ν → Bool) (freeze : ν → ν) (network : ν)
    (check_validity : Bool) : Bool × ν :=
  if check_validity && !valid network then (false, network) else (true, freeze network)

/-! ## The enumeration of operation codes (python/exatn-py.cpp) -/

/-- Modelled from the spec: the enum `TensorOpCode`, declared outside the sources
at hand, with the codes that section 4.2 lists. -/
inductive TensorOpCode where
  | NOOP
  | CREATE
  | DESTROY
  | TRANSFORM
  | ADD
  | CONTRACT
  | BROADCAST
deriving DecidableEq, Repr

/-- The values of the Python enumeration `TensorOpCode` that the binding
registers with `.value(name, code)`, in order. -/
def pyTensorOpCode : List (String × TensorOpCode) :=
  [("NOOP", TensorOpCode.NOOP),
   ("CREATE", TensorOpCode.CREATE),
   ("DESTROY", TensorOpCode.DESTROY),
   ("TRANSFORM", TensorOpCode.TRANSFORM),
   ("ADD", TensorOpCode.ADD),
   ("CONTRACT", TensorOpCode.CONTRACT)]

/-! # Theorems -/

namespace StdMap

variable {ν : Type}

/-- A key without an entry gets the inserted value. -/
theorem find_insert_of_find_none (k : String) (v : ν) (m : StdMap ν)
    (h : find k m = none) : find k (insert k v m) = some v := by
  induction m with
  | nil => simp [insert, find]
  | cons e rest ih =>
    obtain ⟨k', v'⟩ := e
    by_cases hk : k' = k
    · simp [find, hk] at h
    · simp only [find, if_neg hk] at h
      simp only [insert, if_neg hk, find]
      exact ih h

/-- An insertion under a key that has an entry changes nothing. -/
theorem insert_of_find_some (k : String) (v v0 : ν) (m : StdMap ν)
    (h : find k m = some v0) : insert k v m = m := by
  induction m with
  | nil => simp [find] at h
  | cons e rest ih =>
    obtain ⟨k', v'⟩ := e
    by_cases hk : k' = k
    · simp [insert, hk]
    · simp only [find, if_neg hk] at h
      simp only [insert, if_neg hk]
      rw [ih h]

/-- After an insertion the key holds the earlier value when there was one, the
inserted value otherwise. -/
theorem find_insert_self (k : String) (v : ν) (m : StdMap ν) :
    find k (insert k v m) = some ((find k m).getD v) := by
  cases h : find k m with
  | none => simpa using find_insert_of_find_none k v m h
  | some v0 => rw [insert_of_find_some k v v0 m h, h]; rfl

/-- An insertion leaves every other key alone. -/
theorem find_insert_of_ne (k k0 : String) (v : ν) (m : StdMap ν) (hne : k ≠ k0) :
    find k0 (insert k v m) = find k0 m := by
  induction m with
  | nil => simp [insert, find, hne]
  | cons e rest ih =>
    obtain ⟨k', v'⟩ := e
    by_cases hk : k' = k
    · simp [insert, hk]
    · simp only [insert, if_neg hk, find]
      rw [ih]

/-- The entries under a key that has no value: there are none. -/
theorem filter_key_of_find_none (k : String) (m : StdMap ν) (h : find k m = none) :
    m.filter (fun e => decide (e.1 = k)) = [] := by
  induction m with
  | nil => rfl
  | cons e rest ih =>
    obtain ⟨k', v'⟩ := e
    by_cases hk : k' = k
    · simp [find, hk] at h
    · simp only [find, if_neg hk] at h
      simp [List.filter_cons, hk, ih h]

/-- After an insertion under a fresh key the map has one entry with that key. -/
theorem filter_key_insert_of_find_none (k : String) (v : ν) (m : StdMap ν)
    (h : find k m = none) :
    (insert k v m).filter (fun e => decide (e.1 = k)) = [(k, v)] := by
  induction m with
  | nil => simp [insert]
  | cons e rest ih =>
    obtain ⟨k', v'⟩ := e
    by_cases hk : k' = k
    · simp [find, hk] at h
    · simp only [find, if_neg hk] at h
      simp [insert, List.filter_cons, hk, ih h]

end StdMap

namespace Backend

variable {μ : Type} [TensorMethod μ]

/-- C1, as amended: for two functors of one name, `addTensorMethod(m2)` after
`addTensorMethod(m1)` changes nothing: the backend is the one `addTensorMethod(m1)`
left, and the functor under the name is the one that was there before both calls
or, when there was none, `m1`. The first registration wins. -/
theorem addTensorMethod_twice_first_wins (b : Backend μ) (m1 m2 : μ)
    (h : TensorMethod.name m1 = TensorMethod.name m2) :
    (b.addTensorMethod m1).addTensorMethod m2 = b.addTensorMethod m1 ∧
      StdMap.find (TensorMethod.name m2) ((b.addTensorMethod m1).addTensorMethod m2).methods
        = some ((StdMap.find (TensorMethod.name m1) b.methods).getD m1) := by
  have hfind : StdMap.find (TensorMethod.name m2) (b.addTensorMethod m1).methods
      = some ((StdMap.find (TensorMethod.name m1) b.methods).getD m1) := by
    rw [← h]
    exact StdMap.find_insert_self _ _ _
  have hsame : (b.addTensorMethod m1).addTensorMethod m2 = b.addTensorMethod m1 := by
    show ({ (b.addTensorMethod m1) with
      methods := StdMap.insert (TensorMethod.name m2) m2 (b.addTensorMethod m1).methods }
        : Backend μ) = _
    rw [StdMap.insert_of_find_some _ m2 _ _ hfind]
  exact ⟨hsame, by rw [hsame]; exact hfind⟩

/-- C3: when no functor is registered under `method.name()`, after
`addTensorMethod(method)` the functor map has `method` under that name, in one
entry. -/
theorem addTensorMethod_fresh (b : Backend μ) (method : μ)
    (h : StdMap.find (TensorMethod.name method) b.methods = none) :
    StdMap.find (TensorMethod.name method) (b.addTensorMethod method).methods = some method ∧
      (b.addTensorMethod method).methods.filter
          (fun e => decide (e.1 = TensorMethod.name method))
        = [(TensorMethod.name method, method)] :=
  ⟨StdMap.find_insert_of_find_none _ _ _ h, StdMap.filter_key_insert_of_find_none _ _ _ h⟩

end Backend

namespace Backend

variable {μ : Type}

/-- C2: `getExternalData(tag)` is a total function: it returns the packet stored
under `tag` when there is one and the value-initialised packet otherwise. -/
theorem getExternalData_returns (b : Backend μ) (tag : String) :
    (b.getExternalData tag).1 =
      match StdMap.find tag b.extData with
      | some packet => packet
      | none => default := by
  unfold getExternalData StdMap.index
  cases StdMap.find tag b.extData <;> rfl

end Backend

/-- C1, the claim as stated fails: two wrappers of one name are registered one
after the other in an empty backend, and the functor under the name is not the
second one. -/
theorem addTensorMethod_twice_last_wins_fails :
    TensorMethod.name (NumpyTensorFunctorCppWrapper.ofArray (⟨[1], [1]⟩ : PyArray Int))
        = TensorMethod.name (NumpyTensorFunctorCppWrapper.ofArray (⟨[1], [2]⟩ : PyArray Int)) ∧
      StdMap.find
          (TensorMethod.name (NumpyTensorFunctorCppWrapper.ofArray (⟨[1], [2]⟩ : PyArray Int)))
          (((⟨[], []⟩ : Backend (NumpyTensorFunctorCppWrapper Int)).addTensorMethod
              (NumpyTensorFunctorCppWrapper.ofArray ⟨[1], [1]⟩)).addTensorMethod
            (NumpyTensorFunctorCppWrapper.ofArray ⟨[1], [2]⟩)).methods
        ≠ some (NumpyTensorFunctorCppWrapper.ofArray ⟨[1], [2]⟩) := by
  refine ⟨rfl, ?_⟩
  intro h
  have h1 : StdMap.find
      (TensorMethod.name (NumpyTensorFunctorCppWrapper.ofArray (⟨[1], [2]⟩ : PyArray Int)))
      (((⟨[], []⟩ : Backend (NumpyTensorFunctorCppWrapper Int)).addTensorMethod
          (NumpyTensorFunctorCppWrapper.ofArray ⟨[1], [1]⟩)).addTensorMethod
        (NumpyTensorFunctorCppWrapper.ofArray ⟨[1], [2]⟩)).methods
      = some (NumpyTensorFunctorCppWrapper.ofArray ⟨[1], [1]⟩) := by
    simp [Backend.addTensorMethod, StdMap.insert, StdMap.find, TensorMethod.name,
      NumpyTensorFunctorCppWrapper.name]
  rw [h1] at h
  have h2 := congrArg (fun w => w.initialData.data) (Option.some.inj h)
  simp [NumpyTensorFunctorCppWrapper.ofArray] at h2

/-- C1, the amended claim at two wrappers of one name and an empty backend. -/
theorem addTensorMethod_twice_first_wins_witness :
    TensorMethod.name (NumpyTensorFunctorCppWrapper.ofArray (⟨[1], [1]⟩ : PyArray Int))
        = TensorMethod.name (NumpyTensorFunctorCppWrapper.ofArray (⟨[1], [2]⟩ : PyArray Int)) ∧
      (((⟨[], []⟩ : Backend (NumpyTensorFunctorCppWrapper Int)).addTensorMethod
            (NumpyTensorFunctorCppWrapper.ofArray ⟨[1], [1]⟩)).addTensorMethod
          (NumpyTensorFunctorCppWrapper.ofArray ⟨[1], [2]⟩)
        = (⟨[], []⟩ : Backend (NumpyTensorFunctorCppWrapper Int)).addTensorMethod
            (NumpyTensorFunctorCppWrapper.ofArray ⟨[1], [1]⟩)) :=
  ⟨rfl,
    (Backend.addTensorMethod_twice_first_wins
      (⟨[], []⟩ : Backend (NumpyTensorFunctorCppWrapper Int))
      (NumpyTensorFunctorCppWrapper.ofArray ⟨[1], [1]⟩)
      (NumpyTensorFunctorCppWrapper.ofArray ⟨[1], [2]⟩) rfl).1⟩

/-- C3 at a wrapper and an empty backend. -/
theorem addTensorMethod_fresh_witness :
    StdMap.find
        (TensorMethod.name (NumpyTensorFunctorCppWrapper.ofArray (⟨[1], [1]⟩ : PyArray Int)))
        (⟨[], []⟩ : Backend (NumpyTensorFunctorCppWrapper Int)).methods = none ∧
      StdMap.find
        (TensorMethod.name (NumpyTensorFunctorCppWrapper.ofArray (⟨[1], [1]⟩ : PyArray Int)))
        ((⟨[], []⟩ : Backend (NumpyTensorFunctorCppWrapper Int)).addTensorMethod
          (NumpyTensorFunctorCppWrapper.ofArray ⟨[1], [1]⟩)).methods
        = some (NumpyTensorFunctorCppWrapper.ofArray ⟨[1], [1]⟩) :=
  ⟨rfl,
    (Backend.addTensorMethod_fresh
      (⟨[], []⟩ : Backend (NumpyTensorFunctorCppWrapper Int))
      (NumpyTensorFunctorCppWrapper.ofArray ⟨[1], [1]⟩) rfl).1⟩

/-- C6: the table `TypeToTensorElementType` sends `float` to `REAL32`, `double` to
`REAL64` and `std::complex<double>` to `COMPLEX64`; it is injective and its values
are among `REAL32`, `REAL64`, `COMPLEX64`. -/
theorem TypeToTensorElementType_table :
    TypeToTensorElementType .float = .REAL32 ∧
      TypeToTensorElementType .double = .REAL64 ∧
      TypeToTensorElementType .complexDouble = .COMPLEX64 ∧
      Function.Injective TypeToTensorElementType ∧
      ∀ t, TypeToTensorElementType t ∈
        [TensorElementType.REAL32, TensorElementType.REAL64, TensorElementType.COMPLEX64] := by
  refine ⟨rfl, rfl, rfl, ?_, ?_⟩
  · intro a b hab
    cases a <;> cases b <;> first | rfl | cases hab
  · intro t
    cases t <;> simp [TypeToTensorElementType]


/-! ## The counting loop -/

/-- A natural number below `2 ^ 31` is an `int` as it stands. -/
theorem wrapInt32_of_lt (k : Nat) (h : k < 2147483648) : wrapInt32 (k : Int) = k := by
  unfold wrapInt32; omega

/-- The assignment at an index inside both buffers. -/
theorem assignAt_natCast {γ β : Type} (cvt : γ → β) (src : List γ) (dst : List β) (k : Nat)
    (hs : k < src.length) (hd : k < dst.length) :
    assignAt cvt src (k : Int) dst = some (dst.set k (cvt src[k])) := by
  unfold assignAt
  have h0 : ¬ ((k : Int) < 0) := by omega
  rw [if_neg h0, Int.toNat_ofNat, List.getElem?_eq_getElem hs]
  simp only [hd, if_true]

/-- The loop that assigns `dst[i] = src[i]` from the counter `k` on leaves after
the index `m - 1`, where `m` is the bound or, for a bound beyond the range of the
counter, `2 ^ 31`: it has assigned the indices from `k` to `m - 1` and no other. -/
theorem forInt_assignAt {γ β : Type} (cvt : γ → β) (src : List γ) (conv : Int → Nat)
    (bound m : Nat)
    (hconv : ∀ k : Nat, k < 2147483648 → conv (k : Int) = k)
    (hmb : m ≤ bound) (hm : m ≤ 2147483648)
    (hexit : bound ≤ conv (wrapInt32 (m : Int)))
    (hsrc : m ≤ src.length) :
    ∀ (d k fuel : Nat) (dst : List β), k + d = m → d < fuel → m ≤ dst.length →
      ∃ r, forInt conv bound (assignAt cvt src) fuel (wrapInt32 (k : Int)) dst = some r ∧
        r.length = dst.length ∧
        ∀ j, r[j]? = if k ≤ j ∧ j < m then (src[j]?).map cvt else dst[j]? := by
  intro d
  induction d with
  | zero =>
    intro k fuel dst hk hf _
    have hkm : k = m := by omega
    subst hkm
    obtain ⟨f, rfl⟩ : ∃ f, fuel = f + 1 := ⟨fuel - 1, by omega⟩
    refine ⟨dst, ?_, rfl, ?_⟩
    · rw [forInt, if_neg (by omega)]
    · intro j
      rw [if_neg (by omega)]
  | succ d ih =>
    intro k fuel dst hk hf hdst
    obtain ⟨f, rfl⟩ : ∃ f, fuel = f + 1 := ⟨fuel - 1, by omega⟩
    have hk31 : k < 2147483648 := by omega
    have hks : k < src.length := by omega
    have hkd : k < dst.length := by omega
    have hnext : wrapInt32 ((k : Int) + 1) = wrapInt32 ((k + 1 : Nat) : Int) := by
      rw [Nat.cast_succ]
    obtain ⟨r, hr, hlen, hget⟩ :=
      ih (k + 1) f (dst.set k (cvt src[k])) (by omega) (by omega)
        (by rw [List.length_set]; exact hdst)
    refine ⟨r, ?_, ?_, ?_⟩
    · rw [forInt, wrapInt32_of_lt k hk31, hconv k hk31, if_pos (by omega),
        assignAt_natCast cvt src dst k hks hkd]
      simp only
      rw [hnext]
      exact hr
    · rw [hlen, List.length_set]
    · intro j
      rw [hget j, List.getElem?_set]
      by_cases hjk : j = k
      · subst hjk
        rw [if_neg (by omega), if_pos rfl, if_pos hkd, if_pos ⟨le_refl _, by omega⟩,
          List.getElem?_eq_getElem hks]
        rfl
      · by_cases hlt : k + 1 ≤ j ∧ j < m
        · rw [if_pos hlt, if_pos ⟨by omega, hlt.2⟩]
        · rw [if_neg hlt, if_neg (fun h => hjk h.symm), if_neg (by omega)]

/-- The loop over a whole source of at most `2 ^ 31` elements, into a buffer of
the same length: the buffer ends up as the converted source. -/
theorem forInt_assignAt_all {γ β : Type} (cvt : γ → β) (src : List γ) (dst : List β)
    (conv : Int → Nat)
    (hconv : ∀ k : Nat, k < 2147483648 → conv (k : Int) = k)
    (hlen : dst.length = src.length) (hsmall : src.length ≤ 2147483648)
    (hexit : src.length ≤ conv (wrapInt32 (src.length : Int))) :
    forInt conv src.length (assignAt cvt src) intCounterFuel 0 dst = some (src.map cvt) := by
  obtain ⟨r, hr, hrlen, hget⟩ :=
    forInt_assignAt cvt src conv src.length src.length hconv (le_refl _) hsmall hexit
      (le_refl _) src.length 0 intCounterFuel dst (by omega)
      (by unfold intCounterFuel; omega) (by omega)
  have h0 : wrapInt32 ((0 : Nat) : Int) = 0 := by decide
  rw [h0] at hr
  rw [hr]
  congr 1
  apply List.ext_getElem?
  intro j
  rw [hget j, List.getElem?_map]
  by_cases hj : j < src.length
  · rw [if_pos ⟨Nat.zero_le _, hj⟩]
  · rw [if_neg (fun h => hj h.2), List.getElem?_eq_none (by omega),
      List.getElem?_eq_none (by omega)]
    rfl

/-- The first loop of `apply`: `dims_vec` gets every extent, converted to `int`. -/
theorem dims_vec_loop {α : Type} (t : talsh.Tensor α) :
    forInt intToUInt32 (t.getRank % 4294967296)
        (assignAt (fun d : Nat => wrapInt32 (d : Int)) t.getDimExtents) intCounterFuel 0
        (List.replicate (t.getRank % 4294967296) (0 : Int))
      = some (t.dims.map (fun d : Nat => wrapInt32 (d : Int))) := by
  have hr := t.rank_fits
  have hmod : t.getRank % 4294967296 = t.dims.length := by
    unfold talsh.Tensor.getRank; omega
  rw [hmod]
  unfold talsh.Tensor.getDimExtents
  apply forInt_assignAt_all
  · intro k hk
    unfold intToUInt32; omega
  · rw [List.length_replicate]
  · omega
  · rw [wrapInt32_of_lt _ hr]
    unfold intToUInt32; omega

/-- A resize to the count of elements the array has keeps the elements. -/
theorem PyArray.resize_data_of_size {α : Type} [Inhabited α] (a : PyArray α) (n : Nat)
    (h : a.size = n) : (a.resize [n]).data = a.data := by
  unfold PyArray.size at h
  unfold PyArray.resize
  simp only [List.prod_cons, List.prod_nil, Nat.mul_one]
  rw [← h, Nat.sub_self]
  simp

namespace NumpyTensorFunctorCppWrapper

variable {α : Type}

/-- The run of `apply` for a wrapper with initial data of the size of the tensor:
what is left is the copy loop. -/
theorem apply_ofArray [Inhabited α] (ndebug : Bool) (a : PyArray α) (t : talsh.Tensor α)
    (h : a.size = t.getVolume) :
    apply ndebug (ofArray a) t =
      (forInt intToSizeT t.getVolume (assignAt id a.data) intCounterFuel 0 t.elements).map
        (fun elements =>
          { ret := 0
            local_tensor := { t with elements := elements }
            self := { ofArray a with initialData := a.resize [t.getVolume] }
            invoked := [] }) := by
  unfold apply
  dsimp only
  rw [dims_vec_loop]
  have hc : cassert ndebug (t.getVolume == (ofArray a).initialData.size) = some () := by
    unfold cassert
    simp [ofArray, h]
  simp only [hc]
  have hd : ((ofArray a).initialData.resize [t.getVolume]).data = a.data :=
    PyArray.resize_data_of_size a _ h
  rw [hd]
  simp only [ofArray, if_true, talsh.Tensor.getDataAccessHost]
  cases forInt intToSizeT t.getVolume (assignAt id a.data) intCounterFuel 0 t.elements <;> rfl

/-- C4 within the range of the counter: for initial data of the size of the
tensor, and a volume of at most `2 ^ 31`, `apply` returns 0, calls no callback and
leaves the tensor with the elements of the array. -/
theorem apply_ofArray_small [Inhabited α] (ndebug : Bool) (a : PyArray α)
    (t : talsh.Tensor α) (h : a.size = t.getVolume) (hsmall : t.getVolume ≤ 2147483648) :
    apply ndebug (ofArray a) t =
      some { ret := 0
             local_tensor := { t with elements := a.data }
             self := { ofArray a with initialData := a.resize [t.getVolume] }
             invoked := [] } := by
  rw [apply_ofArray ndebug a t h]
  unfold PyArray.size at h
  unfold talsh.Tensor.getVolume at h hsmall ⊢
  rw [← h]
  rw [forInt_assignAt_all id a.data t.elements intToSizeT]
  · simp
  · intro k hk
    unfold intToSizeT; omega
  · exact h.symm
  · omega
  · unfold intToSizeT wrapInt32; omega

end NumpyTensorFunctorCppWrapper


namespace NumpyTensorFunctorCppWrapper

/-- C4 fails beyond the range of the counter: a tensor of `65536 * 32769`
elements, all 0, and initial data of as many elements, all 1. The run returns 0,
and element `2 ^ 31` of the tensor is still 0, while the array has 1 there. -/
theorem apply_ofArray_large_volume :
    (⟨[65536, 32769], List.replicate 2147549184 1⟩ : PyArray Int).size
        = (⟨[65536, 32769], List.replicate 2147549184 0, by decide⟩ : talsh.Tensor Int).getVolume ∧
      (apply false (ofArray (⟨[65536, 32769], List.replicate 2147549184 1⟩ : PyArray Int))
          (⟨[65536, 32769], List.replicate 2147549184 0, by decide⟩ : talsh.Tensor Int)).map
        (fun r => (r.ret, r.local_tensor.elements[2147483648]?)) = some (0, some 0) ∧
      (⟨[65536, 32769], List.replicate 2147549184 1⟩ : PyArray Int).data[2147483648]?
        = some 1 := by
  have hsize : (⟨[65536, 32769], List.replicate 2147549184 1⟩ : PyArray Int).size
      = (⟨[65536, 32769], List.replicate 2147549184 0, by decide⟩ : talsh.Tensor Int).getVolume := by
    simp only [PyArray.size, talsh.Tensor.getVolume, List.length_replicate]
  refine ⟨hsize, ?_, ?_⟩
  · rw [apply_ofArray false _ _ hsize]
    simp only [talsh.Tensor.getVolume, List.length_replicate]
    obtain ⟨r, hr, _, hget⟩ :=
      forInt_assignAt (id : Int → Int) (List.replicate 2147549184 (1 : Int)) intToSizeT
        2147549184 2147483648
        (by intro k hk; unfold intToSizeT; omega) (by omega) (by omega)
        (by unfold intToSizeT wrapInt32; omega)
        (by rw [List.length_replicate]; omega)
        2147483648 0 intCounterFuel (List.replicate 2147549184 (0 : Int)) (by omega)
        (by unfold intCounterFuel; omega) (by rw [List.length_replicate]; omega)
    have h0 : wrapInt32 ((0 : Nat) : Int) = 0 := by decide
    rw [h0] at hr
    have hj := hget 2147483648
    rw [if_neg (by omega), List.getElem?_replicate, if_pos (by omega)] at hj
    rw [hr]
    simp only [Option.map_some', hj]
  · rw [List.getElem?_replicate, if_pos (by omega)]

end NumpyTensorFunctorCppWrapper


namespace NumpyTensorFunctorCppWrapper

variable {α : Type}

/-- Extents that fit an `int` are kept by the conversion, as a list. -/
theorem map_wrapInt32_of_fit (dims : List Nat) (hfit : ∀ d ∈ dims, d < 2147483648) :
    dims.map (fun d : Nat => wrapInt32 (d : Int)) = dims.map (fun d : Nat => (d : Int)) := by
  apply List.map_congr_left
  intro d hd
  exact wrapInt32_of_lt d (hfit d hd)

/-- The run of `apply` for a wrapper with a callback, on a tensor whose extents
fit an `int`: one call of the callback, on the view made of the extents and the
element buffer of the tensor. -/
theorem apply_ofFunctor [Inhabited α] (ndebug : Bool) (f : PyArray α → List α)
    (t : talsh.Tensor α) (hfit : ∀ d ∈ t.getDimExtents, d < 2147483648) :
    apply ndebug (ofFunctor f) t =
      some { ret := 0
             local_tensor :=
               { t with elements := f ⟨t.dims.map (fun d : Nat => (d : Int)), t.elements⟩ }
             self := ofFunctor f
             invoked := [⟨t.dims.map (fun d : Nat => (d : Int)), t.elements⟩] } := by
  unfold apply
  dsimp only
  rw [dims_vec_loop, map_wrapInt32_of_fit t.dims hfit]
  have hview : PyArray.ofBuffer (t.dims.map (fun d : Nat => (d : Int))) t.getDataAccessHost
      = some ⟨t.dims.map (fun d : Nat => (d : Int)), t.elements⟩ := by
    unfold PyArray.ofBuffer
    rw [if_pos]
    · rfl
    · simp
  simp only [hview]
  rfl

/-- C5: for a wrapper with a callback and a tensor whose extents fit a signed
32-bit `int`, `apply` calls the callback once, on a view with as many dimensions
as the tensor has, whose extent `i` is the extent `i` of the tensor and whose data
is the element buffer of the tensor; what the callback leaves in the buffer is
the contents of the tensor after the call, and the return code is 0. -/
theorem apply_ofFunctor_view [Inhabited α] (ndebug : Bool) (f : PyArray α → List α)
    (t : talsh.Tensor α) (hfit : ∀ d ∈ t.getDimExtents, d < 2147483648) :
    ∃ r view, apply ndebug (ofFunctor f) t = some r ∧
      r.invoked = [view] ∧
      view.ndim = t.getRank ∧
      (∀ (i d : Nat), t.getDimExtents[i]? = some d → view.shape[i]? = some (d : Int)) ∧
      view.data = t.getDataAccessHost ∧
      r.local_tensor.elements = f view ∧
      r.local_tensor.dims = t.dims ∧
      r.ret = 0 := by
  refine ⟨_, ⟨t.dims.map (fun d : Nat => (d : Int)), t.elements⟩,
    apply_ofFunctor ndebug f t hfit, rfl, ?_, ?_, rfl, rfl, rfl, rfl⟩
  · simp [PyArray.ndim, talsh.Tensor.getRank]
  · intro i d hd
    unfold talsh.Tensor.getDimExtents at hd
    rw [List.getElem?_map, hd, Option.map_some']

/-- C5 at a tensor of shape `2 x 3` and a callback that adds one to each element. -/
theorem apply_ofFunctor_view_witness :
    (∀ d ∈ (⟨[2, 3], [0, 1, 2, 3, 4, 5], by decide⟩ : talsh.Tensor Int).getDimExtents,
        d < 2147483648) ∧
    ∃ r view,
      apply false (ofFunctor (fun a : PyArray Int => a.data.map (fun x => x + 1)))
          (⟨[2, 3], [0, 1, 2, 3, 4, 5], by decide⟩ : talsh.Tensor Int) = some r ∧
      r.invoked = [view] ∧
      view.ndim = (⟨[2, 3], [0, 1, 2, 3, 4, 5], by decide⟩ : talsh.Tensor Int).getRank ∧
      (∀ (i d : Nat), (⟨[2, 3], [0, 1, 2, 3, 4, 5], by decide⟩ : talsh.Tensor Int).getDimExtents[i]?
          = some d → view.shape[i]? = some (d : Int)) ∧
      view.data = (⟨[2, 3], [0, 1, 2, 3, 4, 5], by decide⟩ : talsh.Tensor Int).getDataAccessHost ∧
      r.local_tensor.elements = (fun a : PyArray Int => a.data.map (fun x => x + 1)) view ∧
      r.local_tensor.dims = [2, 3] ∧
      r.ret = 0 :=
  ⟨by decide,
    apply_ofFunctor_view false (fun a : PyArray Int => a.data.map (fun x => x + 1))
      (⟨[2, 3], [0, 1, 2, 3, 4, 5], by decide⟩ : talsh.Tensor Int) (by decide)⟩

end NumpyTensorFunctorCppWrapper

/-! ## The module function `appendTensorNetwork` -/

/-- C7, as amended: the module function hands a copy of the second network to
`TensorNetwork::appendTensorNetwork`; the flag and the first network are those of
the member function, and the network the caller passed second is, after the call,
the network it was before. -/
theorem appendTensorNetwork_keeps_argument {ν π : Type} (core : ν → ν → π → Bool × ν × ν)
    (network append_network : ν) (pairing : π) :
    (appendTensorNetwork core network append_network pairing).1
        = (core network append_network pairing).1 ∧
      (appendTensorNetwork core network append_network pairing).2.1
        = (core network append_network pairing).2.1 ∧
      (appendTensorNetwork core network append_network pairing).2.2 = append_network :=
  ⟨rfl, rfl, rfl⟩

/-- C7, the claim as stated fails: a network of one node is appended through the
module function; the member function leaves the network it was given empty, and
the network of the caller still has its node. -/
theorem appendTensorNetwork_consumes_fails :
    (TensorNetwork.appendTensorNetwork ⟨"net", [(1, "T1")]⟩ ⟨"other", [(1, "T2")]⟩
        [(0, 0)]).2.2.isEmpty = true ∧
      (appendTensorNetwork TensorNetwork.appendTensorNetwork ⟨"net", [(1, "T1")]⟩
        ⟨"other", [(1, "T2")]⟩ [(0, 0)]).2.2.isEmpty = false := by
  decide

/-! ## The `createTensor` lambdas -/

/-- C8, as amended: each `createTensor` lambda calls `NumServer::createTensor`
with the element type `REAL64` and leaves the server as that call leaves it; it
returns no value. A creation that fails aborts at the assertion when assertions
are on, and returns like a creation that succeeds when they are off. -/
theorem pyCreateTensor_returns {σ : Type}
    (createTensor : σ → String → TensorElementType → List Nat → Bool × σ)
    (createTensorScalar : σ → String → TensorElementType → Bool × σ)
    (ndebug : Bool) (n : σ) (name : String) (dims : List Nat) :
    pyCreateTensorDims createTensor ndebug n name dims =
        (if ndebug || (createTensor n name TensorElementType.REAL64 dims).1
          then some ((), (createTensor n name TensorElementType.REAL64 dims).2) else none) ∧
      pyCreateTensor createTensorScalar ndebug n name =
        (if ndebug || (createTensorScalar n name TensorElementType.REAL64).1
          then some ((), (createTensorScalar n name TensorElementType.REAL64).2) else none) := by
  constructor
  · cases ndebug <;> cases h : (createTensor n name TensorElementType.REAL64 dims).1 <;>
      simp [pyCreateTensorDims, cassert, h]
  · cases ndebug <;> cases h : (createTensorScalar n name TensorElementType.REAL64).1 <;>
      simp [pyCreateTensor, cassert, h]

/-- C8, the claim as stated fails: with assertions off, the creation of a tensor
under a name that is taken fails in the server, and the lambda returns to the
caller what it returns for a creation that succeeds. -/
theorem pyCreateTensor_flag_lost :
    (NumServer.createTensor ⟨[("A", (TensorElementType.REAL64, [2]))]⟩ "A"
        TensorElementType.REAL64 [2]).1 = false ∧
      (NumServer.createTensor ⟨[]⟩ "A" TensorElementType.REAL64 [2]).1 = true ∧
      (pyCreateTensorDims NumServer.createTensor true
          ⟨[("A", (TensorElementType.REAL64, [2]))]⟩ "A" [2]).map Prod.fst
        = (pyCreateTensorDims NumServer.createTensor true ⟨[]⟩ "A" [2]).map Prod.fst ∧
      (pyCreateTensorDims NumServer.createTensor true
          ⟨[("A", (TensorElementType.REAL64, [2]))]⟩ "A" [2]).map Prod.fst = some () := by
  decide

/-! ## The broadcast operation -/

namespace TensorOpBroadcast

/-- C9: `resetRootRank(rank)` succeeds only for a rank below the size of the
process group of the communicator of the operation; for a rank out of range it
returns false and leaves the root rank and the communicator as they were. -/
theorem resetRootRank_checks_rank (op : TensorOpBroadcast) (rank : Nat) :
    ((op.resetRootRank rank).1 = true → rank < op.groupSize) ∧
      (op.groupSize ≤ rank →
        (op.resetRootRank rank).1 = false ∧
        (op.resetRootRank rank).2.getRootRank = op.getRootRank ∧
        (op.resetRootRank rank).2.getMPICommunicator = op.getMPICommunicator) := by
  unfold resetRootRank
  constructor
  · intro h
    by_contra hlt
    rw [if_neg hlt] at h
    cases h
  · intro h
    rw [if_neg (by omega)]
    exact ⟨rfl, rfl, rfl⟩

/-- C9 at a group of 4 processes: rank 7 is refused and the root rank 1 stays. -/
theorem resetRootRank_checks_rank_witness :
    ((({ operand := some "T", intra_comm_ := some ⟨4⟩, root_rank_ := some 1 } :
          TensorOpBroadcast).resetRootRank 7).1 = true →
        7 < ({ operand := some "T", intra_comm_ := some ⟨4⟩, root_rank_ := some 1 } :
          TensorOpBroadcast).groupSize) ∧
      (({ operand := some "T", intra_comm_ := some ⟨4⟩, root_rank_ := some 1 } :
          TensorOpBroadcast).resetRootRank 7).1 = false ∧
      (({ operand := some "T", intra_comm_ := some ⟨4⟩, root_rank_ := some 1 } :
          TensorOpBroadcast).resetRootRank 7).2.getRootRank = some 1 :=
  ⟨(resetRootRank_checks_rank
      { operand := some "T", intra_comm_ := some ⟨4⟩, root_rank_ := some 1 } 7).1,
    ((resetRootRank_checks_rank
      { operand := some "T", intra_comm_ := some ⟨4⟩, root_rank_ := some 1 } 7).2
        (by decide)).1,
    ((resetRootRank_checks_rank
      { operand := some "T", intra_comm_ := some ⟨4⟩, root_rank_ := some 1 } 7).2
        (by decide)).2.1⟩

/-- C10: `isSet()` is true exactly when the tensor operand, the communicator and
the root rank have all been set, and an operation for which it is false is
refused by `accept`, whatever the executor. -/
theorem isSet_iff_all_set (op : TensorOpBroadcast) :
    (op.isSet = true ↔
        op.operand.isSome = true ∧ op.intra_comm_.isSome = true ∧
          op.root_rank_.isSome = true) ∧
      (op.isSet = false →
        ∀ (η : Type) (node_executor : TensorOpBroadcast → η), accept node_executor op = none) := by
  constructor
  · unfold isSet
    simp [Bool.and_eq_true, and_assoc]
  · intro h η node_executor
    unfold accept
    rw [h]
    rfl

/-- C10 at an operation with the operand and the communicator set and no root
rank: it is not set and an executor does not get it. -/
theorem isSet_iff_all_set_witness :
    ({ operand := some "T", intra_comm_ := some ⟨4⟩, root_rank_ := none } :
        TensorOpBroadcast).isSet = false ∧
      accept (fun _ => (0 : Int))
        { operand := some "T", intra_comm_ := some ⟨4⟩, root_rank_ := none } = none :=
  ⟨by decide,
    (isSet_iff_all_set { operand := some "T", intra_comm_ := some ⟨4⟩, root_rank_ := none }).2
      (by decide) Int (fun _ => (0 : Int))⟩

end TensorOpBroadcast

/-! ## Frame properties of the backend -/

namespace StdMap

variable {ν : Type}

/-- An insertion under a key without an entry adds one entry. -/
theorem size_insert_of_find_none (k : String) (v : ν) (m : StdMap ν)
    (h : find k m = none) : size (insert k v m) = size m + 1 := by
  induction m with
  | nil => rfl
  | cons e rest ih =>
    obtain ⟨k', v'⟩ := e
    by_cases hk : k' = k
    · simp [find, hk] at h
    · simp only [find, if_neg hk] at h
      simp only [insert, if_neg hk, size, List.length_cons] at ih ⊢
      rw [ih h]

/-- An insertion adds one entry at most and removes none. -/
theorem size_insert_le (k : String) (v : ν) (m : StdMap ν) :
    size m ≤ size (insert k v m) ∧ size (insert k v m) ≤ size m + 1 := by
  cases h : find k m with
  | none => rw [size_insert_of_find_none k v m h]; omega
  | some v0 => rw [insert_of_find_some k v v0 m h]; omega

/-- In a map, the entries under a key that has a value are that one entry. -/
theorem entriesAt_of_find_some (k : String) (v : ν) (m : StdMap ν)
    (hd : keysDistinct m) (h : find k m = some v) : entriesAt k m = [(k, v)] := by
  induction m with
  | nil => simp [find] at h
  | cons e rest ih =>
    obtain ⟨k', v'⟩ := e
    unfold keysDistinct at hd
    rw [List.map_cons, List.nodup_cons] at hd
    by_cases hk : k' = k
    · subst hk
      simp only [find, if_true, Option.some.injEq] at h
      subst h
      have hnone : find k' rest = none := by
        cases hf : find k' rest with
        | none => rfl
        | some v1 =>
          exfalso
          apply hd.1
          clear ih hd
          induction rest with
          | nil => simp [find] at hf
          | cons e2 rest2 ih2 =>
            obtain ⟨k2, v2⟩ := e2
            by_cases hk2 : k2 = k'
            · simp [hk2]
            · simp only [find, if_neg hk2] at hf
              simp only [List.map_cons, List.mem_cons]
              exact Or.inr (ih2 hf)
      have := filter_key_of_find_none k' rest hnone
      simp [entriesAt, List.filter_cons, this]
    · simp only [find, if_neg hk] at h
      have := ih hd.2 h
      simp only [entriesAt] at this ⊢
      simp [List.filter_cons, hk, this]

end StdMap

namespace Backend

variable {μ : Type}

/-- C13: for a tag without a packet, `getExternalData(tag)` adds to the
external-data map the entry of `tag` with the value-initialised packet, so that
the map has one entry more, every other tag keeps what it had and the functor map
is as before; for a tag with a packet the backend is left as it was. -/
theorem getExternalData_effect (b : Backend μ) (tag : String) :
    (StdMap.find tag b.extData = none →
        StdMap.find tag (b.getExternalData tag).2.extData = some default ∧
        StdMap.size (b.getExternalData tag).2.extData = StdMap.size b.extData + 1 ∧
        (∀ other, other ≠ tag →
          StdMap.find other (b.getExternalData tag).2.extData = StdMap.find other b.extData) ∧
        (b.getExternalData tag).2.methods = b.methods) ∧
      (∀ packet, StdMap.find tag b.extData = some packet →
        (b.getExternalData tag).2 = b) := by
  constructor
  · intro h
    have he : (b.getExternalData tag).2.extData = StdMap.insert tag default b.extData := by
      unfold getExternalData StdMap.index
      rw [h]
    refine ⟨?_, ?_, ?_, rfl⟩
    · rw [he]
      exact StdMap.find_insert_of_find_none tag default b.extData h
    · rw [he]
      exact StdMap.size_insert_of_find_none tag default b.extData h
    · intro other hne
      rw [he]
      exact StdMap.find_insert_of_ne tag other default b.extData (fun e => hne e.symm)
  · intro packet h
    unfold getExternalData StdMap.index
    rw [h]

/-- C13 at a backend with one packet, asked for another tag. -/
theorem getExternalData_effect_witness :
    StdMap.find "t2" (⟨[], [("t1", ⟨8, 16⟩)]⟩ : Backend (NumpyTensorFunctorCppWrapper Int)).extData = none ∧
      StdMap.find "t2"
        ((⟨[], [("t1", ⟨8, 16⟩)]⟩ : Backend (NumpyTensorFunctorCppWrapper Int)).getExternalData "t2").2.extData
          = some default ∧
      StdMap.size ((⟨[], [("t1", ⟨8, 16⟩)]⟩ : Backend (NumpyTensorFunctorCppWrapper Int)).getExternalData "t2").2.extData
          = StdMap.size (⟨[], [("t1", ⟨8, 16⟩)]⟩ : Backend (NumpyTensorFunctorCppWrapper Int)).extData + 1 :=
  ⟨rfl,
    ((getExternalData_effect (⟨[], [("t1", ⟨8, 16⟩)]⟩ : Backend (NumpyTensorFunctorCppWrapper Int)) "t2").1 rfl).1,
    ((getExternalData_effect (⟨[], [("t1", ⟨8, 16⟩)]⟩ : Backend (NumpyTensorFunctorCppWrapper Int)) "t2").1 rfl).2.1⟩

/-- C14: two calls of `getExternalData(tag)` in a row return the same packet, and
the second call leaves the backend as the first call left it. -/
theorem getExternalData_twice (b : Backend μ) (tag : String) :
    ((b.getExternalData tag).2.getExternalData tag).1 = (b.getExternalData tag).1 ∧
      ((b.getExternalData tag).2.getExternalData tag).2 = (b.getExternalData tag).2 := by
  have hfind : StdMap.find tag (b.getExternalData tag).2.extData
      = some (b.getExternalData tag).1 := by
    cases h : StdMap.find tag b.extData with
    | none =>
      have h1 : b.getExternalData tag
          = (default, { b with extData := StdMap.insert tag default b.extData }) := by
        unfold getExternalData StdMap.index
        rw [h]
      rw [h1]
      exact StdMap.find_insert_of_find_none tag default b.extData h
    | some packet =>
      have h1 : b.getExternalData tag = (packet, b) := by
        unfold getExternalData StdMap.index
        rw [h]
      rw [h1]
      exact h
  generalize b.getExternalData tag = r at hfind
  obtain ⟨packet, b1⟩ := r
  simp only at hfind ⊢
  unfold getExternalData StdMap.index
  rw [hfind]
  exact ⟨rfl, rfl⟩

end Backend

namespace Backend

variable {μ : Type} [TensorMethod μ]

/-- C15: `addTensorMethod(method)` leaves the external-data map as it was, leaves
the functor under every name other than `method.name()` as it was, and adds one
functor at most. -/
theorem addTensorMethod_frame (b : Backend μ) (method : μ) :
    (b.addTensorMethod method).extData = b.extData ∧
      (∀ other, other ≠ TensorMethod.name method →
        StdMap.find other (b.addTensorMethod method).methods = StdMap.find other b.methods) ∧
      StdMap.size b.methods ≤ StdMap.size (b.addTensorMethod method).methods ∧
      StdMap.size (b.addTensorMethod method).methods ≤ StdMap.size b.methods + 1 := by
  refine ⟨rfl, ?_, ?_⟩
  · intro other hne
    exact StdMap.find_insert_of_ne _ other method b.methods (fun e => hne e.symm)
  · exact StdMap.size_insert_le _ method b.methods

end Backend

/-! ## Wrappers in the functor map -/

/-- C12, as amended: every wrapper, whatever its numeric type, reports the name
`numpy_tensor_functor_cpp_wrapper`; and when two functors of that name are
registered one after the other, the functor map has a single entry for the name,
which holds the functor registered under the name before the two calls or, when
there was none, the first of the two; the second call changes nothing. -/
theorem wrapper_registered_twice {μ : Type} [TensorMethod μ] (b : Backend μ) (w1 w2 : μ)
    (hd : StdMap.keysDistinct b.methods)
    (h1 : TensorMethod.name w1 = "numpy_tensor_functor_cpp_wrapper")
    (h2 : TensorMethod.name w2 = "numpy_tensor_functor_cpp_wrapper") :
    (∀ (β : Type) (w : NumpyTensorFunctorCppWrapper β),
        TensorMethod.name w = "numpy_tensor_functor_cpp_wrapper") ∧
      StdMap.entriesAt "numpy_tensor_functor_cpp_wrapper"
          ((b.addTensorMethod w1).addTensorMethod w2).methods
        = [("numpy_tensor_functor_cpp_wrapper",
            (StdMap.find "numpy_tensor_functor_cpp_wrapper" b.methods).getD w1)] ∧
      (b.addTensorMethod w1).addTensorMethod w2 = b.addTensorMethod w1 := by
  have hfind : StdMap.find "numpy_tensor_functor_cpp_wrapper" (b.addTensorMethod w1).methods
      = some ((StdMap.find "numpy_tensor_functor_cpp_wrapper" b.methods).getD w1) := by
    unfold Backend.addTensorMethod
    rw [h1]
    exact StdMap.find_insert_self _ _ _
  have hsame : (b.addTensorMethod w1).addTensorMethod w2 = b.addTensorMethod w1 := by
    show ({ (b.addTensorMethod w1) with
      methods := StdMap.insert (TensorMethod.name w2) w2 (b.addTensorMethod w1).methods }
        : Backend μ) = _
    rw [h2, StdMap.insert_of_find_some _ w2 _ _ hfind]
  refine ⟨fun _ _ => rfl, ?_, hsame⟩
  rw [hsame]
  cases h : StdMap.find "numpy_tensor_functor_cpp_wrapper" b.methods with
  | none =>
    unfold Backend.addTensorMethod
    rw [h1]
    exact StdMap.filter_key_insert_of_find_none _ w1 b.methods h
  | some w0 =>
    unfold Backend.addTensorMethod
    rw [h1]
    simp only [StdMap.insert_of_find_some _ w1 w0 b.methods h]
    exact StdMap.entriesAt_of_find_some _ w0 b.methods hd h

/-- C12, the claim as stated fails: in a backend that holds a wrapper already, two
more wrappers are registered, and the functor under the name is not the first of
the two. -/
theorem wrapper_registered_twice_not_first :
    StdMap.keysDistinct
        (⟨[("numpy_tensor_functor_cpp_wrapper",
              NumpyTensorFunctorCppWrapper.ofArray (⟨[1], [0]⟩ : PyArray Int))], []⟩ :
          Backend (NumpyTensorFunctorCppWrapper Int)).methods ∧
      StdMap.find "numpy_tensor_functor_cpp_wrapper"
          (((⟨[("numpy_tensor_functor_cpp_wrapper",
                  NumpyTensorFunctorCppWrapper.ofArray (⟨[1], [0]⟩ : PyArray Int))], []⟩ :
              Backend (NumpyTensorFunctorCppWrapper Int)).addTensorMethod
              (NumpyTensorFunctorCppWrapper.ofArray ⟨[1], [1]⟩)).addTensorMethod
            (NumpyTensorFunctorCppWrapper.ofArray ⟨[1], [2]⟩)).methods
        ≠ some (NumpyTensorFunctorCppWrapper.ofArray ⟨[1], [1]⟩) := by
  refine ⟨by simp [StdMap.keysDistinct], ?_⟩
  intro h
  have h1 : StdMap.find "numpy_tensor_functor_cpp_wrapper"
      (((⟨[("numpy_tensor_functor_cpp_wrapper",
              NumpyTensorFunctorCppWrapper.ofArray (⟨[1], [0]⟩ : PyArray Int))], []⟩ :
          Backend (NumpyTensorFunctorCppWrapper Int)).addTensorMethod
          (NumpyTensorFunctorCppWrapper.ofArray ⟨[1], [1]⟩)).addTensorMethod
        (NumpyTensorFunctorCppWrapper.ofArray ⟨[1], [2]⟩)).methods
      = some (NumpyTensorFunctorCppWrapper.ofArray ⟨[1], [0]⟩) := by
    simp [Backend.addTensorMethod, StdMap.insert, StdMap.find, TensorMethod.name,
      NumpyTensorFunctorCppWrapper.name]
  rw [h1] at h
  have h2 := congrArg (fun w => w.initialData.data) (Option.some.inj h)
  simp [NumpyTensorFunctorCppWrapper.ofArray] at h2

/-- C12, the amended claim at two wrappers and a backend that holds a third. -/
theorem wrapper_registered_twice_witness :
    StdMap.keysDistinct
        (⟨[("numpy_tensor_functor_cpp_wrapper",
              NumpyTensorFunctorCppWrapper.ofArray (⟨[1], [0]⟩ : PyArray Int))], []⟩ :
          Backend (NumpyTensorFunctorCppWrapper Int)).methods ∧
      ((⟨[("numpy_tensor_functor_cpp_wrapper",
              NumpyTensorFunctorCppWrapper.ofArray (⟨[1], [0]⟩ : PyArray Int))], []⟩ :
            Backend (NumpyTensorFunctorCppWrapper Int)).addTensorMethod
            (NumpyTensorFunctorCppWrapper.ofArray ⟨[1], [1]⟩)).addTensorMethod
          (NumpyTensorFunctorCppWrapper.ofArray ⟨[1], [2]⟩)
        = (⟨[("numpy_tensor_functor_cpp_wrapper",
              NumpyTensorFunctorCppWrapper.ofArray (⟨[1], [0]⟩ : PyArray Int))], []⟩ :
            Backend (NumpyTensorFunctorCppWrapper Int)).addTensorMethod
            (NumpyTensorFunctorCppWrapper.ofArray ⟨[1], [1]⟩) :=
  ⟨by simp [StdMap.keysDistinct],
    (wrapper_registered_twice
      (⟨[("numpy_tensor_functor_cpp_wrapper",
            NumpyTensorFunctorCppWrapper.ofArray (⟨[1], [0]⟩ : PyArray Int))], []⟩ :
        Backend (NumpyTensorFunctorCppWrapper Int))
      (NumpyTensorFunctorCppWrapper.ofArray ⟨[1], [1]⟩)
      (NumpyTensorFunctorCppWrapper.ofArray ⟨[1], [2]⟩)
      (by simp [StdMap.keysDistinct]) rfl rfl).2.2⟩

/-! ## The function `createTensorWithData` -/

/-- The loop with a signed bound that assigns `dst[i] = src[i]` from the counter
`k` up to the bound `m`, below `2 ^ 31`. -/
theorem forIntSigned_assignAt {γ β : Type} (cvt : γ → β) (src : List γ) (m : Nat)
    (hm : m < 2147483648) (hsrc : m ≤ src.length) :
    ∀ (d k fuel : Nat) (dst : List β), k + d = m → d < fuel → m ≤ dst.length →
      ∃ r, forIntSigned (m : Int) (assignAt cvt src) fuel (k : Int) dst = some r ∧
        r.length = dst.length ∧
        ∀ j, r[j]? = if k ≤ j ∧ j < m then (src[j]?).map cvt else dst[j]? := by
  intro d
  induction d with
  | zero =>
    intro k fuel dst hk hf _
    have hkm : k = m := by omega
    subst hkm
    obtain ⟨f, rfl⟩ : ∃ f, fuel = f + 1 := ⟨fuel - 1, by omega⟩
    refine ⟨dst, ?_, rfl, ?_⟩
    · rw [forIntSigned, if_neg (by omega)]
    · intro j
      rw [if_neg (by omega)]
  | succ d ih =>
    intro k fuel dst hk hf hdst
    obtain ⟨f, rfl⟩ : ∃ f, fuel = f + 1 := ⟨fuel - 1, by omega⟩
    have hks : k < src.length := by omega
    have hkd : k < dst.length := by omega
    have hnext : wrapInt32 ((k : Int) + 1) = ((k + 1 : Nat) : Int) := by
      rw [← Nat.cast_succ]
      exact wrapInt32_of_lt (k + 1) (by omega)
    obtain ⟨r, hr, hlen, hget⟩ :=
      ih (k + 1) f (dst.set k (cvt src[k])) (by omega) (by omega)
        (by rw [List.length_set]; exact hdst)
    refine ⟨r, ?_, ?_, ?_⟩
    · rw [forIntSigned, if_pos (by omega), assignAt_natCast cvt src dst k hks hkd]
      simp only
      rw [hnext]
      exact hr
    · rw [hlen, List.length_set]
    · intro j
      rw [hget j, List.getElem?_set]
      by_cases hjk : j = k
      · subst hjk
        rw [if_neg (by omega), if_pos rfl, if_pos hkd, if_pos ⟨le_refl _, by omega⟩,
          List.getElem?_eq_getElem hks]
        rfl
      · by_cases hlt : k + 1 ≤ j ∧ j < m
        · rw [if_pos hlt, if_pos ⟨by omega, hlt.2⟩]
        · rw [if_neg hlt, if_neg (fun h => hjk h.symm), if_neg (by omega)]

/-- The loop of `createTensorWithData`: `dims` gets every extent of the array. -/
theorem dims_loop {α : Type} (data : PyArray α) (hnd : data.ndim < 2147483648) :
    forIntSigned (data.ndim : Int) (assignAt ssizeToSizeT data.shape) intCounterFuel 0
        (List.replicate data.ndim (0 : Nat))
      = some (data.shape.map ssizeToSizeT) := by
  unfold PyArray.ndim at hnd ⊢
  obtain ⟨r, hr, hrlen, hget⟩ :=
    forIntSigned_assignAt ssizeToSizeT data.shape data.shape.length hnd (le_refl _)
      data.shape.length 0 intCounterFuel (List.replicate data.shape.length (0 : Nat))
      (by omega) (by unfold intCounterFuel; omega) (by rw [List.length_replicate])
  rw [Nat.cast_zero] at hr
  rw [hr]
  congr 1
  apply List.ext_getElem?
  intro j
  rw [hget j, List.getElem?_map]
  by_cases hj : j < data.shape.length
  · rw [if_pos ⟨Nat.zero_le _, hj⟩]
  · rw [if_neg (fun h => hj h.2), List.getElem?_replicate, if_neg hj,
      List.getElem?_eq_none (by omega)]
    rfl

/-- Extents that are non-negative `ssize_t` values are kept by the conversion. -/
theorem map_ssizeToSizeT (shape : List Int)
    (hshape : ∀ d ∈ shape, 0 ≤ d ∧ d < 9223372036854775808) :
    shape.map ssizeToSizeT = shape.map Int.toNat := by
  apply List.map_congr_left
  intro d hd
  have := hshape d hd
  unfold ssizeToSizeT
  omega

/-- C16, as amended: for a numpy array of fewer than `2 ^ 31` dimensions whose
extents are non-negative `ssize_t` values, `createTensorWithData` calls
`createTensor` with the name, the element type mapped from the numeric type and
a shape of as many extents as the array has dimensions, extent `i` being
`data.shape[i]`. Unless assertions are on and the creation failed, which aborts
the run, it then calls `transformTensor` with the name and a wrapper made from the
array, on the server the creation left, and returns the flag of that call. -/
theorem createTensorWithData_run {σ α : Type}
    (createTensor : σ → String → TensorElementType → List Nat → Bool × σ)
    (transformTensor : σ → String → NumpyTensorFunctorCppWrapper α → Bool × σ)
    (ndebug : Bool) (ty : HostNumericType) (n : σ) (name : String) (data : PyArray α)
    (hnd : data.ndim < 2147483648)
    (hshape : ∀ d ∈ data.shape, 0 ≤ d ∧ d < 9223372036854775808) :
    (data.shape.map Int.toNat).length = data.ndim ∧
      (∀ (i : Nat) (d : Int), data.shape[i]? = some d →
        ∃ e : Nat, (data.shape.map Int.toNat)[i]? = some e ∧ (e : Int) = d) ∧
      createTensorWithData createTensor transformTensor ndebug ty n name data =
        (if ndebug ||
            (createTensor n name (TypeToTensorElementType ty) (data.shape.map Int.toNat)).1
          then some (transformTensor
            (createTensor n name (TypeToTensorElementType ty) (data.shape.map Int.toNat)).2
            name (NumpyTensorFunctorCppWrapper.ofArray data))
          else none) := by
  refine ⟨by simp [PyArray.ndim], ?_, ?_⟩
  · intro i d hd
    refine ⟨d.toNat, by rw [List.getElem?_map, hd]; rfl, ?_⟩
    have := hshape d (List.getElem?_mem hd)
    omega
  · unfold createTensorWithData
    dsimp only
    rw [dims_loop data hnd, map_ssizeToSizeT data.shape hshape]
    cases ndebug <;>
      cases h : (createTensor n name (TypeToTensorElementType ty)
        (data.shape.map Int.toNat)).1 <;>
      simp [cassert, h]

/-- C16, the amended claim at an array of shape `2` and a server without tensors. -/
theorem createTensorWithData_run_witness :
    (⟨[2], [1, 2]⟩ : PyArray Int).ndim < 2147483648 ∧
      (∀ d ∈ (⟨[2], [1, 2]⟩ : PyArray Int).shape, 0 ≤ d ∧ d < 9223372036854775808) ∧
      (createTensorWithData NumServer.createTensor NumServer.transformTensor false
          HostNumericType.double ⟨[]⟩ "A" (⟨[2], [1, 2]⟩ : PyArray Int)).map Prod.fst
        = some true :=
  ⟨by decide, by decide,
    (congrArg (fun r : Option (Bool × NumServer) => r.map Prod.fst)
      (createTensorWithData_run NumServer.createTensor NumServer.transformTensor false
        HostNumericType.double ⟨[]⟩ "A" (⟨[2], [1, 2]⟩ : PyArray Int)
        (by decide) (by decide)).2.2).trans (by decide)⟩

/-- C16, the claim as stated fails: with assertions on and a name that is taken,
the creation fails and the run is aborted at the assertion: no functor is applied
and no flag is returned. -/
theorem createTensorWithData_aborts :
    (NumServer.createTensor ⟨[("A", (TensorElementType.REAL64, [2]))]⟩ "A"
        (TypeToTensorElementType HostNumericType.double) [2]).1 = false ∧
      createTensorWithData NumServer.createTensor NumServer.transformTensor false
        HostNumericType.double ⟨[("A", (TensorElementType.REAL64, [2]))]⟩ "A"
        (⟨[2], [1, 2]⟩ : PyArray Int) = none := by
  decide

/-! ## The binding of `finalize` -/

/-- C17: through the binding, `finalize` without an argument is `finalize` with
`check_validity = false`; the member function gets the flag `true` only when the
caller passes `true`. With the member function of the spec, a call without an
argument freezes the network whatever the check of the edges and extents would
say, and the check decides only in a call that passes `true`. -/
theorem pyFinalize_default {ν ρ : Type} (core : ν → Bool → ρ) (valid : ν → Bool)
    (freeze : ν → ν) (network : ν) :
    pyFinalize core network none = pyFinalize core network (some false) ∧
      pyFinalize core network none = core network false ∧
      (∀ arg, pyFinalize core network arg = core network (arg == some true)) ∧
      pyFinalize (finalizeSpec valid freeze) network none = (true, freeze network) ∧
      pyFinalize (finalizeSpec valid freeze) network (some true)
        = (if valid network then (true, freeze network) else (false, network)) := by
  refine ⟨rfl, rfl, ?_, ?_, ?_⟩
  · intro arg
    cases arg with
    | none => rfl
    | some flag => cases flag <;> rfl
  · simp [pyFinalize, finalizeSpec]
  · cases h : valid network <;> simp [pyFinalize, finalizeSpec, h]

/-! ## The enumeration of operation codes -/

/-- C18, as amended: the enumeration that the binding registers has a code for
`NOOP`, `CREATE`, `DESTROY`, `TRANSFORM`, `ADD` and `CONTRACT`, each under its own
name and no name twice; it has no entry for `BROADCAST`. -/
theorem pyTensorOpCode_values :
    pyTensorOpCode.map Prod.fst = ["NOOP", "CREATE", "DESTROY", "TRANSFORM", "ADD", "CONTRACT"] ∧
      (pyTensorOpCode.map Prod.fst).Nodup ∧
      (pyTensorOpCode.map Prod.snd).Nodup ∧
      (∀ code, code ∈ pyTensorOpCode.map Prod.snd ↔ code ≠ TensorOpCode.BROADCAST) ∧
      StdMap.find "BROADCAST" pyTensorOpCode = none := by
  refine ⟨rfl, by decide, by decide, ?_, by decide⟩
  intro code
  cases code <;> decide

/-- C18, the claim as stated fails: no value of the enumeration of the binding is
the code `BROADCAST`, and none has the name `BROADCAST`. -/
theorem pyTensorOpCode_lacks_broadcast :
    TensorOpCode.BROADCAST ∉ pyTensorOpCode.map Prod.snd ∧
      "BROADCAST" ∉ pyTensorOpCode.map Prod.fst := by
  decide

end Exatn
